import Mathlib

/-!
# Verification of the `age_calculator` user service

Shallow embedding of the Go repository `srinivasarynh/age_calculator`:
a CRUD user service whose core logic is age computation from a date of
birth, pagination arithmetic, and error mapping.  Each definition below
embeds a function of the source; theorems settle the frozen claims about
the natural-language specification.
-/

/-- A calendar date as carried by Go's `time.Time` for this service:
year, month and day (the service never uses the time-of-day part). -/
structure Date where
  year : Int
  month : Nat
  day : Nat
deriving DecidableEq, Repr

/-- Gregorian leap-year rule, as implemented by Go's `time` package
(used by `time.Date` / `AddDate` when forming neighbouring dates). -/
def isLeapYear (y : Int) : Bool :=
  y % 4 = 0 && (y % 100 != 0 || y % 400 = 0)

/-- Number of days of month `m` in year `y` (Gregorian calendar, as in
Go's `time` package). -/
def daysInMonth (y : Int) (m : Nat) : Nat :=
  if m = 2 then (if isLeapYear y then 29 else 28)
  else if m = 4 ∨ m = 6 ∨ m = 9 ∨ m = 11 then 30
  else 31

/-- `d` is a real calendar date. -/
def ValidDate (d : Date) : Prop :=
  1 ≤ d.month ∧ d.month ≤ 12 ∧ 1 ≤ d.day ∧ d.day ≤ daysInMonth d.year d.month

instance (d : Date) : Decidable (ValidDate d) := by
  unfold ValidDate; infer_instance

/-- The calendar day immediately before `d` (Gregorian calendar): used to
state the spec's property about `r - 1 day`. -/
def predDate (d : Date) : Date :=
  if 2 ≤ d.day then ⟨d.year, d.month, d.day - 1⟩
  else if 2 ≤ d.month then ⟨d.year, d.month - 1, daysInMonth d.year (d.month - 1)⟩
  else ⟨d.year - 1, 12, 31⟩

/-- Chronological order on dates: lexicographic on (year, month, day). -/
def dateLe (a b : Date) : Prop :=
  a.year < b.year ∨ (a.year = b.year ∧
    (a.month < b.month ∨ (a.month = b.month ∧ a.day ≤ b.day)))

/-- Strict chronological order on dates. -/
def dateLt (a b : Date) : Prop :=
  a.year < b.year ∨ (a.year = b.year ∧
    (a.month < b.month ∨ (a.month = b.month ∧ a.day < b.day)))

instance (a b : Date) : Decidable (dateLe a b) := by
  unfold dateLe; infer_instance

instance (a b : Date) : Decidable (dateLt a b) := by
  unfold dateLt; infer_instance

/-- Embeds `CalculateAge` (`internal/service/user_service.go`):

    age := now.Year() - dob.Year()
    if now.Month() < dob.Month() || (now.Month() == dob.Month() && now.Day() < dob.Day()) {
        age--
    }

The reference date `now` (`time.Now()` in the source) is passed
explicitly. -/
def calculateAge (dob now : Date) : Int :=
  let age := now.year - dob.year
  if now.month < dob.month ∨ (now.month = dob.month ∧ now.day < dob.day) then
    age - 1
  else
    age

lemma calculateAge_eq (dob now : Date) :
    calculateAge dob now = now.year - dob.year -
      (if now.month < dob.month ∨ (now.month = dob.month ∧ now.day < dob.day)
       then 1 else 0) := by
  unfold calculateAge
  split_ifs <;> ring

/-- C1: the computed age is the year difference, decremented by one exactly
when `(now.month, now.day)` is lexicographically below
`(dob.month, dob.day)`; in particular on the birthday itself no decrement
happens. -/
theorem age_is_year_diff_minus_lex_decrement (dob r : Date) :
    (toLex (r.month, r.day) < toLex (dob.month, dob.day) →
       calculateAge dob r = r.year - dob.year - 1) ∧
    (¬ toLex (r.month, r.day) < toLex (dob.month, dob.day) →
       calculateAge dob r = r.year - dob.year) ∧
    ((r.month, r.day) = (dob.month, dob.day) →
       calculateAge dob r = r.year - dob.year) := by
  rw [calculateAge_eq]
  refine ⟨?_, ?_, ?_⟩
  · intro h
    rw [Prod.Lex.lt_iff] at h
    simp only [if_pos h]
  · intro h
    rw [Prod.Lex.lt_iff] at h
    simp only [if_neg h]
    ring
  · intro h
    have h1 : r.month = dob.month := congrArg Prod.fst h
    have h2 : r.day = dob.day := congrArg Prod.snd h
    have : ¬ (r.month < dob.month ∨ (r.month = dob.month ∧ r.day < dob.day)) := by
      omega
    rw [if_neg this]
    ring

/-- Witness for C1 at the example of the spec:
`age(1990-05-10, 2024-05-10) = 34` (the birthday itself). -/
theorem age_is_year_diff_minus_lex_decrement_witness :
    calculateAge ⟨1990, 5, 10⟩ ⟨2024, 5, 10⟩ = 34 := by
  have h := (age_is_year_diff_minus_lex_decrement ⟨1990, 5, 10⟩ ⟨2024, 5, 10⟩).2.2 rfl
  simpa using h

/-- C6: for a date of birth on or before the reference date, the computed
age is non-negative. -/
theorem age_nonneg_of_dob_le_ref (dob r : Date) (h : dateLe dob r) :
    0 ≤ calculateAge dob r := by
  rw [calculateAge_eq]
  unfold dateLe at h
  split_ifs <;> omega

/-- Witness for C6: a concrete historical date of birth gives a
non-negative age. -/
theorem age_nonneg_of_dob_le_ref_witness :
    dateLe ⟨1990, 5, 10⟩ ⟨2024, 5, 9⟩ ∧ 0 ≤ calculateAge ⟨1990, 5, 10⟩ ⟨2024, 5, 9⟩ :=
  ⟨by decide, age_nonneg_of_dob_le_ref ⟨1990, 5, 10⟩ ⟨2024, 5, 9⟩ (by decide)⟩

lemma daysInMonth_le_31 (y : Int) (m : Nat) : daysInMonth y m ≤ 31 := by
  unfold daysInMonth; split_ifs <;> omega

lemma daysInMonth_congr (y y' : Int) (m : Nat) (h : m ≠ 2) :
    daysInMonth y m = daysInMonth y' m := by
  unfold daysInMonth; rw [if_neg h, if_neg h]

lemma predDate_of_day (r : Date) (h : 2 ≤ r.day) :
    predDate r = ⟨r.year, r.month, r.day - 1⟩ := by
  unfold predDate; rw [if_pos h]

lemma predDate_of_month (r : Date) (h : ¬ 2 ≤ r.day) (h2 : 2 ≤ r.month) :
    predDate r = ⟨r.year, r.month - 1, daysInMonth r.year (r.month - 1)⟩ := by
  unfold predDate; rw [if_neg h, if_pos h2]

lemma predDate_of_year (r : Date) (h : ¬ 2 ≤ r.day) (h2 : ¬ 2 ≤ r.month) :
    predDate r = ⟨r.year - 1, 12, 31⟩ := by
  unfold predDate; rw [if_neg h, if_neg h2]

/-- Counterexample to C2 as stated: for the leap-day birthday 2000-02-29
and reference date 2001-03-01 the age changes from the previous day
(2001-02-28) even though `(r.month, r.day) ≠ (d.month, d.day)`. -/
theorem birthday_increment_iff_fails_on_leap_day :
    ValidDate ⟨2000, 2, 29⟩ ∧ ValidDate ⟨2001, 3, 1⟩ ∧
    dateLe ⟨2000, 2, 29⟩ ⟨2001, 3, 1⟩ ∧
    ¬((3, 1) = ((2 : Nat), (29 : Nat))) ∧
    calculateAge ⟨2000, 2, 29⟩ ⟨2001, 3, 1⟩ ≠
      calculateAge ⟨2000, 2, 29⟩ (predDate ⟨2001, 3, 1⟩) := by
  refine ⟨by decide, by decide, by decide, by decide, ?_⟩
  decide

/-- C2 (amended): for valid dates `d ≤ r`, the age at `r` equals the age
one day earlier except exactly on the birthday `(r.month, r.day) =
(d.month, d.day)`, or — when `d` is the leap day Feb 29 and `r`'s year is
not a leap year — on March 1, where the deferred increment happens. -/
theorem age_changes_exactly_on_birthday_or_leap_gap (d r : Date)
    (hd : ValidDate d) (hr : ValidDate r) (_hle : dateLe d r) :
    calculateAge d r = calculateAge d (predDate r) ↔
      ¬((r.month = d.month ∧ r.day = d.day) ∨
        (d.month = 2 ∧ d.day = 29 ∧ r.month = 3 ∧ r.day = 1 ∧
          isLeapYear r.year = false)) := by
  obtain ⟨hd1, hd2, hd3, hd4⟩ := hd
  obtain ⟨hr1, hr2, hr3, hr4⟩ := hr
  by_cases hday : 2 ≤ r.day
  · rw [predDate_of_day r hday]
    simp only [calculateAge_eq]
    have hex : ¬(d.month = 2 ∧ d.day = 29 ∧ r.month = 3 ∧ r.day = 1 ∧
        isLeapYear r.year = false) := by
      rintro ⟨-, -, -, h, -⟩; omega
    simp only [hex, or_false]
    split_ifs <;> omega
  · by_cases hmon : 2 ≤ r.month
    · rw [predDate_of_month r hday hmon]
      simp only [calculateAge_eq]
      by_cases hm : r.month - 1 = d.month
      · by_cases h2m : d.month = 2
        · have hr3eq : r.month = 3 := by omega
          have hd29 : d.day ≤ 29 := by
            have h4 := hd4
            rw [h2m] at h4
            unfold daysInMonth at h4
            revert h4
            split_ifs <;> omega
          have hdim : r.month - 1 = 2 := by omega
          rcases hLb : isLeapYear r.year with _ | _
          · have hn28 : daysInMonth r.year (r.month - 1) = 28 := by
              rw [hdim]; unfold daysInMonth; rw [if_pos rfl, if_neg (by simp [hLb])]
            rw [hn28]
            simp only [eq_self_iff_true, and_true]
            split_ifs <;> omega
          · have hn29 : daysInMonth r.year (r.month - 1) = 29 := by
              rw [hdim]; unfold daysInMonth; rw [if_pos rfl, if_pos hLb]
            rw [hn29]
            have hex : ¬(d.month = 2 ∧ d.day = 29 ∧ r.month = 3 ∧ r.day = 1 ∧
                (true : Bool) = false) := by
              rintro ⟨-, -, -, -, h⟩
              exact Bool.noConfusion h
            simp only [hex, or_false]
            split_ifs <;> omega
        · have hnm : daysInMonth r.year (r.month - 1) = daysInMonth d.year d.month := by
            rw [hm]; exact daysInMonth_congr _ _ _ h2m
          have hdn : d.day ≤ daysInMonth r.year (r.month - 1) := by
            rw [hnm]; exact hd4
          have hex : ¬(d.month = 2 ∧ d.day = 29 ∧ r.month = 3 ∧ r.day = 1 ∧
              isLeapYear r.year = false) := by
            rintro ⟨h, -⟩; exact h2m h
          simp only [hex, or_false]
          split_ifs <;> omega
      · have hex : ¬(d.month = 2 ∧ d.day = 29 ∧ r.month = 3 ∧ r.day = 1 ∧
            isLeapYear r.year = false) := by
          rintro ⟨ha, -, hb, -, -⟩; omega
        simp only [hex, or_false]
        split_ifs <;> omega
    · rw [predDate_of_year r hday hmon]
      simp only [calculateAge_eq]
      have hd31 : d.day ≤ 31 := le_trans hd4 (daysInMonth_le_31 _ _)
      have hex : ¬(d.month = 2 ∧ d.day = 29 ∧ r.month = 3 ∧ r.day = 1 ∧
          isLeapYear r.year = false) := by
        rintro ⟨-, -, h, -, -⟩; omega
      simp only [hex, or_false]
      split_ifs <;> omega

/-- Witness for the amended C2: away from the birthday the age does not
change across one day (1990-05-10 vs the day before 2024-07-01). -/
theorem age_changes_exactly_on_birthday_or_leap_gap_witness :
    calculateAge ⟨1990, 5, 10⟩ ⟨2024, 7, 1⟩ =
      calculateAge ⟨1990, 5, 10⟩ (predDate ⟨2024, 7, 1⟩) :=
  (age_changes_exactly_on_birthday_or_leap_gap ⟨1990, 5, 10⟩ ⟨2024, 7, 1⟩
    (by decide) (by decide) (by decide)).mpr (by decide)

/-!
## Pagination arithmetic (`internal/models/user.go`, `ListUsers`)
-/

/-- Embeds `PaginationParams` (`internal/models/user.go`).  Go's `int` is
modelled as an unbounded integer; `GetOffset` applies the 32-bit
conversion explicitly. -/
structure PaginationParams where
  page : Int
  pageSize : Int
deriving DecidableEq, Repr

/-- Embeds `PaginationParams.SetDefaults`: a zero page becomes 1, a zero
page size becomes 10. -/
def SetDefaults (p : PaginationParams) : PaginationParams :=
  ⟨if p.page = 0 then 1 else p.page, if p.pageSize = 0 then 10 else p.pageSize⟩

/-- The `validate:"omitempty,min=1"` / `"omitempty,min=1,max=100"` rules on
`PaginationParams`: a zero value is skipped (`omitempty`), otherwise
`page ≥ 1` and `1 ≤ page_size ≤ 100`.  There is no upper bound on `page`. -/
def validPagination (p : PaginationParams) : Prop :=
  (p.page = 0 ∨ 1 ≤ p.page) ∧
  (p.pageSize = 0 ∨ (1 ≤ p.pageSize ∧ p.pageSize ≤ 100))

instance (p : PaginationParams) : Decidable (validPagination p) := by
  unfold validPagination; infer_instance

/-- Two's-complement wrap of an integer to a signed 64-bit value,
modelling arithmetic on Go's (64-bit) `int`. -/
def wrap64 (n : Int) : Int :=
  let m := n.emod (2 ^ 64)
  if 2 ^ 63 ≤ m then m - 2 ^ 64 else m

/-- Two's-complement wrap of an integer to a signed 32-bit value,
modelling Go's `int32(...)` conversion. -/
def wrap32 (n : Int) : Int :=
  let m := n.emod (2 ^ 32)
  if 2 ^ 31 ≤ m then m - 2 ^ 32 else m

/-- Embeds `PaginationParams.GetOffset`:
`int32((p.Page - 1) * p.PageSize)`, where the subtraction and product are
evaluated on Go's 64-bit `int` and then truncated to `int32`. -/
def GetOffset (p : PaginationParams) : Int :=
  wrap32 (wrap64 (wrap64 (p.page - 1) * p.pageSize))

/-- Embeds `PaginationParams.GetLimit`: `int32(p.PageSize)`. -/
def GetLimit (p : PaginationParams) : Int :=
  wrap32 p.pageSize

/-- Embeds `int(math.Ceil(float64(total) / float64(params.PageSize)))`
from `ListUsers` (`internal/service/user_service.go`).  For
`0 ≤ total < 2^53` and `1 ≤ pageSize ≤ 100` the two `float64` conversions
are exact and the quotient's ceiling is computed exactly by `float64`
division (the quotient is never close enough to an integer from above to
round down across it), so the computation is modelled by the exact
rational ceiling, written with Euclidean division. -/
def totalPages (total pageSize : Int) : Int :=
  -(Int.ediv (-total) pageSize)

/-- C3: the total page count equals `⌈total / pageSize⌉` under exact
real-valued division, and takes the documented values on the spec's
examples. -/
theorem totalPages_eq_ceil :
    (∀ total pageSize : Int, 0 ≤ total → 1 ≤ pageSize → pageSize ≤ 100 →
      totalPages total pageSize = ⌈(total : ℚ) / (pageSize : ℚ)⌉) ∧
    totalPages 0 10 = 0 ∧ totalPages 1 10 = 1 ∧ totalPages 101 10 = 11 := by
  refine ⟨?_, by decide, by decide, by decide⟩
  intro t s _ht hs1 _hs100
  unfold totalPages
  have hs0 : (0 : Int) < s := by omega
  have hdm : s * (Int.ediv (-t) s) + Int.emod (-t) s = -t := Int.ediv_add_emod (-t) s
  have hr0 : 0 ≤ Int.emod (-t) s := Int.emod_nonneg (-t) (by omega)
  have hrs : Int.emod (-t) s < s := Int.emod_lt_of_pos (-t) hs0
  set q : Int := Int.ediv (-t) s with hq
  set r : Int := Int.emod (-t) s with hr
  symm
  rw [Int.ceil_eq_iff]
  have hsQ : (0 : ℚ) < (s : ℚ) := by exact_mod_cast hs0
  have hdmQ : (s : ℚ) * q + r = -t := by exact_mod_cast hdm
  have hr0Q : (0 : ℚ) ≤ (r : ℚ) := by exact_mod_cast hr0
  have hrsQ : (r : ℚ) < s := by exact_mod_cast hrs
  constructor
  · rw [lt_div_iff₀ hsQ]
    push_cast
    ring_nf
    ring_nf at hdmQ
    linarith [hdmQ, hrsQ]
  · rw [div_le_iff₀ hsQ]
    push_cast
    ring_nf
    ring_nf at hdmQ
    linarith [hdmQ, hr0Q]

/-- Witness for C3 at the spec's example `total_pages(101, 10) = 11`. -/
theorem totalPages_eq_ceil_witness :
    totalPages 101 10 = ⌈(101 : ℚ) / (10 : ℚ)⌉ :=
  totalPages_eq_ceil.1 101 10 (by norm_num) (by norm_num) (by norm_num)

/-- C10: the page number 67108864 with page size 100 passes request
validation (which puts no upper bound on the page), yet the computed row
offset `int32((page - 1) * pageSize)` wraps modulo 2^32 to a negative
value. -/
theorem getOffset_wraps_negative :
    validPagination ⟨67108864, 100⟩ ∧
    GetOffset (SetDefaults ⟨67108864, 100⟩) = -1879048292 ∧
    GetOffset (SetDefaults ⟨67108864, 100⟩) < 0 :=
  ⟨by decide, by decide, by decide⟩

/-!
## Data model and error values (`internal/models`, `internal/service`)
-/

/-- Embeds `models.User`: the persisted row.  The two timestamps are
opaque to every claim and are modelled as integer ticks. -/
structure User where
  id : Int
  name : String
  dob : Date
  createdAt : Int
  updatedAt : Int
deriving DecidableEq, Repr

/-- A Go `error` value as this service distinguishes them:
`service.ErrUserNotFound`, `service.ErrInvalidDate`, `sql.ErrNoRows`,
or any other (driver/storage) error carrying its message string. -/
inductive GoError where
  | userNotFound
  | invalidDate
  | sqlNoRows
  | other (msg : String)
deriving DecidableEq, Repr

/-- `err.Error()`: the message string of a Go error value. -/
def GoError.message : GoError → String
  | .userNotFound => "user not found"
  | .invalidDate => "invalid date format"
  | .sqlNoRows => "sql: no rows in result set"
  | .other m => m

/-- Embeds `models.UserResponse`: `Age` is `*int` with `omitempty`, so a
`none` age is omitted from the serialized response. -/
structure UserResponse where
  id : Int
  name : String
  dob : String
  age : Option Int
deriving DecidableEq, Repr

/-- Embeds `models.UserListResponse`. -/
structure UserListResponse where
  users : List UserResponse
  total : Int
  page : Int
  pageSize : Int
  totalPages : Int
deriving DecidableEq, Repr

/-- Embeds `models.CreateUserRequest` (after body deserialization). -/
structure CreateUserRequest where
  name : String
  dob : String
deriving DecidableEq, Repr

/-- Embeds `models.UpdateUserRequest`. -/
structure UpdateUserRequest where
  name : String
  dob : String
deriving DecidableEq, Repr

/-- Zero-pad a month or day number to two digits, as Go's
`Format("2006-01-02")` does. -/
def pad2 (n : Nat) : String :=
  if n < 10 then "0" ++ toString n else toString n

/-- Embeds `t.Format("2006-01-02")` on the date part of a `time.Time`
(Go additionally zero-pads years below 1000; no claim inspects the year
text). -/
def formatDate (d : Date) : String :=
  toString d.year ++ "-" ++ pad2 d.month ++ "-" ++ pad2 d.day

/-- Split a character list at every hyphen. -/
def splitHyphens : List Char → List (List Char)
  | [] => [[]]
  | c :: rest =>
    match splitHyphens rest with
    | [] => []
    | g :: gs => if c = '-' then [] :: g :: gs else (c :: g) :: gs

/-- Read a non-empty all-digit character list as a decimal number. -/
def digitsToNat : List Char → Option Nat
  | [] => none
  | cs =>
    cs.foldl
      (fun acc c =>
        match acc with
        | none => none
        | some n => if c.isDigit then some (n * 10 + (c.toNat - 48)) else none)
      (some 0)

/-- Embeds `time.Parse("2006-01-02", s)`: a 4-digit year, 2-digit month
and 2-digit day separated by hyphens, with the month and day required to
form a real calendar date (Go rejects out-of-range values such as
month 13 or Feb 30); no other bound is checked, so future dates
parse fine. -/
def parseDate (s : String) : Option Date :=
  match splitHyphens s.data with
  | [y, m, d] =>
    if y.length = 4 ∧ m.length = 2 ∧ d.length = 2 then
      match digitsToNat y, digitsToNat m, digitsToNat d with
      | some yn, some mn, some dn =>
        if 1 ≤ mn ∧ mn ≤ 12 ∧ 1 ≤ dn ∧ dn ≤ daysInMonth (yn : Int) mn then
          some ⟨(yn : Int), mn, dn⟩
        else none
      | _, _, _ => none
    else none
  | _ => none

/-- The repository interface `repository.UserRepository` as the service
sees it: each operation yields whatever the database interaction
produced.  Quantifying over values of this structure quantifies over all
possible store behaviours. -/
structure RepoM where
  create : String → Date → Except GoError User
  getById : Int → Except GoError (Option User)
  list : Int → Int → Except GoError (List User)
  update : Int → String → Date → Except GoError (Option User)
  count : Except GoError Int

namespace Service

/-- Embeds `userService.CreateUser`: parse the date of birth, delegate to
`repo.Create`, and answer a summary WITHOUT an age field. -/
def CreateUser (repo : RepoM) (req : CreateUserRequest) :
    Except GoError UserResponse :=
  match parseDate req.dob with
  | none => .error .invalidDate
  | some dob =>
    match repo.create req.name dob with
    | .error e => .error e
    | .ok user =>
      .ok { id := user.id, name := user.name, dob := formatDate user.dob,
            age := none }

/-- Embeds `userService.GetUser`: fetch by id, translate the absent row
to `ErrUserNotFound`, and attach `CalculateAge` (evaluated against the
injected reference date `now`, `time.Now()` in the source). -/
def GetUser (now : Date) (repo : RepoM) (id : Int) :
    Except GoError UserResponse :=
  match repo.getById id with
  | .error e => .error e
  | .ok none => .error .userNotFound
  | .ok (some user) =>
    .ok { id := user.id, name := user.name, dob := formatDate user.dob,
          age := some (calculateAge user.dob now) }

/-- Embeds `userService.ListUsers`: apply the pagination defaults, fetch
the page and the count, attach an age to every row, and compute the
total page count. -/
def ListUsers (now : Date) (repo : RepoM) (params : PaginationParams) :
    Except GoError UserListResponse :=
  match repo.list (GetLimit (SetDefaults params)) (GetOffset (SetDefaults params)) with
  | .error e => .error e
  | .ok users =>
    match repo.count with
    | .error e => .error e
    | .ok total =>
      .ok { users := users.map (fun u =>
              { id := u.id, name := u.name, dob := formatDate u.dob,
                age := some (calculateAge u.dob now) }),
            total := total, page := (SetDefaults params).page,
            pageSize := (SetDefaults params).pageSize,
            totalPages := totalPages total (SetDefaults params).pageSize }

/-- Embeds `userService.UpdateUser`: same date parsing as create, absent
row maps to `ErrUserNotFound`, and the summary carries NO age field. -/
def UpdateUser (repo : RepoM) (id : Int) (req : UpdateUserRequest) :
    Except GoError UserResponse :=
  match parseDate req.dob with
  | none => .error .invalidDate
  | some dob =>
    match repo.update id req.name dob with
    | .error e => .error e
    | .ok none => .error .userNotFound
    | .ok (some user) =>
      .ok { id := user.id, name := user.name, dob := formatDate user.dob,
            age := none }

end Service

/-- C4: the age field is populated on every successful get response and on
every element of a successful list response, and omitted (`none`, dropped
by `omitempty`) on every successful create and update response. -/
theorem age_presence_matches_endpoints :
    (∀ repo req resp, Service.CreateUser repo req = .ok resp → resp.age = none) ∧
    (∀ repo id req resp, Service.UpdateUser repo id req = .ok resp → resp.age = none) ∧
    (∀ now repo id resp, Service.GetUser now repo id = .ok resp → resp.age ≠ none) ∧
    (∀ now repo params resp, Service.ListUsers now repo params = .ok resp →
      ∀ u ∈ resp.users, u.age ≠ none) := by
  refine ⟨?_, ?_, ?_, ?_⟩
  · intro repo req resp h
    unfold Service.CreateUser at h
    split at h
    · exact Except.noConfusion h
    · split at h
      · exact Except.noConfusion h
      · injection h with h
        rw [← h]
  · intro repo id req resp h
    unfold Service.UpdateUser at h
    split at h
    · exact Except.noConfusion h
    · split at h
      · exact Except.noConfusion h
      · exact Except.noConfusion h
      · injection h with h
        rw [← h]
  · intro now repo id resp h
    unfold Service.GetUser at h
    split at h
    · exact Except.noConfusion h
    · exact Except.noConfusion h
    · injection h with h
      rw [← h]
      exact fun hcon => Option.noConfusion hcon
  · intro now repo params resp h
    unfold Service.ListUsers at h
    split at h
    · exact Except.noConfusion h
    · split at h
      · exact Except.noConfusion h
      · injection h with h
        rw [← h]
        intro u hu
        rw [List.mem_map] at hu
        obtain ⟨v, -, rfl⟩ := hu
        exact fun hcon => Option.noConfusion hcon

/-- A concrete reference date used by witnesses. -/
def demoNow : Date := ⟨2024, 5, 10⟩

/-- A concrete stored row used by witnesses. -/
def demoUser : User := ⟨1, "Alice", ⟨1990, 5, 10⟩, 0, 0⟩

/-- A concrete repository behaviour used by witnesses: a store holding
exactly `demoUser`. -/
def demoRepo : RepoM where
  create := fun n d => .ok ⟨1, n, d, 0, 0⟩
  getById := fun i => if i = 1 then .ok (some demoUser) else .ok none
  list := fun _ _ => .ok [demoUser]
  update := fun i n d => if i = 1 then .ok (some ⟨1, n, d, 0, 0⟩) else .ok none
  count := .ok 1

/-- Witness for C4: evaluating create and get on the concrete repository,
the create response omits the age and the get response carries one. -/
theorem age_presence_matches_endpoints_witness :
    UserResponse.age ⟨1, "Alice", formatDate ⟨1990, 5, 10⟩, none⟩ = none ∧
    UserResponse.age ⟨1, "Alice", formatDate ⟨1990, 5, 10⟩,
      some (calculateAge ⟨1990, 5, 10⟩ demoNow)⟩ ≠ none :=
  ⟨age_presence_matches_endpoints.1 demoRepo ⟨"Alice", "1990-05-10"⟩
      ⟨1, "Alice", formatDate ⟨1990, 5, 10⟩, none⟩ (by rfl),
   age_presence_matches_endpoints.2.2.1 demoNow demoRepo 1
      ⟨1, "Alice", formatDate ⟨1990, 5, 10⟩,
        some (calculateAge ⟨1990, 5, 10⟩ demoNow)⟩ (by rfl)⟩

lemma calculateAge_neg_of_future (dob now : Date) (h : dateLt now dob) :
    calculateAge dob now < 0 := by
  rw [calculateAge_eq]
  unfold dateLt at h
  split_ifs <;> omega

/-- C9: a date of birth strictly after the reference date yields a
strictly negative age, and a stored user with such a date of birth makes
`GetUser` answer a response whose age field is negative. -/
theorem future_dob_yields_negative_age :
    (∀ dob now : Date, dateLt now dob → calculateAge dob now < 0) ∧
    (∀ (now : Date) (repo : RepoM) (id : Int) (user : User) (resp : UserResponse),
      repo.getById id = .ok (some user) → dateLt now user.dob →
      Service.GetUser now repo id = .ok resp →
      ∃ a, resp.age = some a ∧ a < 0) := by
  refine ⟨calculateAge_neg_of_future, ?_⟩
  intro now repo id user resp hget hlt h
  unfold Service.GetUser at h
  rw [hget] at h
  injection h with h
  rw [← h]
  exact ⟨calculateAge user.dob now, rfl, calculateAge_neg_of_future user.dob now hlt⟩

/-- A repository behaviour holding a user born in the future, used by the
witness for C9. -/
def demoFutureRepo : RepoM where
  create := fun n d => .ok ⟨1, n, d, 0, 0⟩
  getById := fun _ => .ok (some ⟨1, "Alice", ⟨2030, 1, 1⟩, 0, 0⟩)
  list := fun _ _ => .ok []
  update := fun _ _ _ => .ok none
  count := .ok 1

/-- Witness for C9: at the concrete future date of birth 2030-01-01 and
reference date 2024-05-10 the get response carries a negative age. -/
theorem future_dob_yields_negative_age_witness :
    ∃ a, UserResponse.age ⟨1, "Alice", formatDate ⟨2030, 1, 1⟩,
      some (calculateAge ⟨2030, 1, 1⟩ demoNow)⟩ = some a ∧ a < 0 :=
  future_dob_yields_negative_age.2 demoNow demoFutureRepo 1
    ⟨1, "Alice", ⟨2030, 1, 1⟩, 0, 0⟩
    ⟨1, "Alice", formatDate ⟨2030, 1, 1⟩, some (calculateAge ⟨2030, 1, 1⟩ demoNow)⟩
    (by rfl) (by decide) (by rfl)

/-!
## Deletion (`internal/repository/user_repository.go`,
`userService.DeleteUser`)
-/

/-- The `users` table as the repository's `DELETE` statement sees it. -/
structure UsersTable where
  rows : List User
deriving DecidableEq, Repr

namespace Repo

/-- Embeds `userRepository.Delete`: runs
`DELETE FROM users WHERE id = $1` and returns `sql.ErrNoRows` when
`RowsAffected()` is zero.  The SQL statement removes every row whose id
matches and reports the number of removed rows. -/
def Delete (st : UsersTable) (id : Int) : UsersTable × Option GoError :=
  let remaining := st.rows.filter (fun u => u.id ≠ id)
  if st.rows.length - remaining.length = 0 then
    (st, some .sqlNoRows)
  else
    (⟨remaining⟩, none)

end Repo

namespace Service

/-- Embeds `userService.DeleteUser`: delegate to `Repo.Delete` and map an
error whose message is `"sql: no rows in result set"` to
`ErrUserNotFound`, passing any other error through unchanged. -/
def DeleteUser (st : UsersTable) (id : Int) : UsersTable × Except GoError Unit :=
  match Repo.Delete st id with
  | (st', none) => (st', .ok ())
  | (st', some e) =>
    (st', if e.message = "sql: no rows in result set" then
            .error .userNotFound
          else .error e)

end Service

lemma deleteUser_of_absent (st : UsersTable) (id : Int)
    (h : ∀ u ∈ st.rows, u.id ≠ id) :
    Service.DeleteUser st id = (st, .error .userNotFound) := by
  have hfilter : st.rows.filter (fun u => u.id ≠ id) = st.rows := by
    rw [List.filter_eq_self]
    intro u hu
    exact decide_eq_true (h u hu)
  unfold Service.DeleteUser Repo.Delete
  rw [hfilter]
  simp [GoError.message]

lemma length_filter_lt_of_mem_false {α : Type} (p : α → Bool) (l : List α)
    (u : α) (hu : u ∈ l) (hp : p u = false) :
    (l.filter p).length < l.length := by
  induction l with
  | nil => exact absurd hu (List.not_mem_nil u)
  | cons a l ih =>
    by_cases hpa : p a = true
    · have hmem : u ∈ l := by
        rcases List.mem_cons.mp hu with rfl | h
        · rw [hp] at hpa; exact Bool.noConfusion hpa
        · exact h
      rw [List.filter_cons_of_pos hpa]
      simp only [List.length_cons]
      exact Nat.succ_lt_succ (ih hmem)
    · rw [List.filter_cons_of_neg hpa]
      have hle : (l.filter p).length ≤ l.length := List.length_filter_le _ _
      simp only [List.length_cons]
      omega

lemma length_filter_ne_lt_of_mem {l : List User} {id : Int} (u : User)
    (hu : u ∈ l) (hid : u.id = id) :
    (l.filter (fun v => v.id ≠ id)).length < l.length :=
  length_filter_lt_of_mem_false _ l u hu (by simp [hid])

/-- C5: deleting an id with no matching row answers `ErrUserNotFound`
(and nothing else); deleting a present id succeeds and a second delete of
the same id answers `ErrUserNotFound`; and `ErrUserNotFound` is a
different value from every storage error. -/
theorem delete_absent_is_notFound :
    (∀ st id, (∀ u ∈ st.rows, u.id ≠ id) →
      Service.DeleteUser st id = (st, .error .userNotFound)) ∧
    (∀ st id u, u ∈ st.rows → u.id = id →
      (Service.DeleteUser st id).2 = .ok () ∧
      (Service.DeleteUser (Service.DeleteUser st id).1 id).2 =
        .error .userNotFound) ∧
    (∀ msg, (GoError.userNotFound : GoError) ≠ .other msg) := by
  refine ⟨deleteUser_of_absent, ?_, fun msg h => GoError.noConfusion h⟩
  intro st id u hu hid
  have hlt := length_filter_ne_lt_of_mem u hu hid
  have hcond : ¬ (st.rows.length - (st.rows.filter (fun v => v.id ≠ id)).length = 0) := by
    omega
  have hfirst : Service.DeleteUser st id =
      (⟨st.rows.filter (fun v => v.id ≠ id)⟩, .ok ()) := by
    unfold Service.DeleteUser Repo.Delete
    rw [if_neg hcond]
  refine ⟨by rw [hfirst], ?_⟩
  rw [hfirst]
  have habsent : ∀ v ∈ st.rows.filter (fun w => w.id ≠ id), v.id ≠ id := by
    intro v hv
    exact of_decide_eq_true (List.mem_filter.mp hv).2
  rw [deleteUser_of_absent ⟨st.rows.filter (fun v => v.id ≠ id)⟩ id habsent]

/-- Witness for C5 on a one-row table: the first delete succeeds, the
second answers `ErrUserNotFound`, as does deleting an id that was never
present. -/
theorem delete_absent_is_notFound_witness :
    Service.DeleteUser ⟨[demoUser]⟩ 2 = (⟨[demoUser]⟩, .error .userNotFound) ∧
    (Service.DeleteUser ⟨[demoUser]⟩ 1).2 = .ok () ∧
    (Service.DeleteUser (Service.DeleteUser ⟨[demoUser]⟩ 1).1 1).2 =
      .error .userNotFound :=
  ⟨delete_absent_is_notFound.1 ⟨[demoUser]⟩ 2 (by decide),
   (delete_absent_is_notFound.2.1 ⟨[demoUser]⟩ 1 demoUser (by decide) (by decide)).1,
   (delete_absent_is_notFound.2.1 ⟨[demoUser]⟩ 1 demoUser (by decide) (by decide)).2⟩

/-!
## HTTP surface (`internal/middleware/middleware.go`,
`internal/handler`)
-/

namespace Middleware

/-- Embeds the `RequestID` middleware: read the request header
`"X-Request-ID"` (empty string when absent), fall back to a freshly
generated uuid, and set the response header.  The response header name is
transcribed verbatim from the source's `c.Set("X-Request_ID", requestID)`.
The result is the (response header name, header value) pair. -/
def RequestID (incoming : String) (fresh : String) : String × String :=
  ("X-Request_ID", if incoming = "" then fresh else incoming)

/-- Embeds `ErrorHandler`: the JSON envelope produced for errors that
reach the fiber error handler, keyed field list in source order. -/
def ErrorHandlerBody (message requestID : String) : List (String × String) :=
  [("error", message), ("request_id", requestID)]

end Middleware

/-- C7 (code evaluation): the response header set by the middleware is
named `"X-Request_ID"`, not `"X-Request-ID"`; the value logic (echo the
caller's id, else the generated one) is as claimed. -/
theorem requestID_response_header_misnamed :
    (Middleware.RequestID "" "generated-uuid").1 = "X-Request_ID" ∧
    (Middleware.RequestID "" "generated-uuid").1 ≠ "X-Request-ID" ∧
    (Middleware.RequestID "" "generated-uuid").2 = "generated-uuid" ∧
    (Middleware.RequestID "caller-id" "generated-uuid").2 = "caller-id" :=
  ⟨rfl, by decide, rfl, rfl⟩

/-- The JSON body of a handler-produced response: either a payload object
or an error object given as a field list. -/
inductive HBody where
  | userJson (u : UserResponse)
  | listJson (l : UserListResponse)
  | errJson (fields : List (String × String))
  | empty
deriving DecidableEq, Repr

/-- An HTTP response as the handlers build it. -/
structure HttpResponse where
  status : Nat
  body : HBody
deriving DecidableEq, Repr

/-- The field names of an error body (empty for payload bodies). -/
def HBody.errKeys : HBody → List String
  | .errJson fields => fields.map Prod.fst
  | _ => []

namespace Handler

/-- Embeds handler `GetUser` (package `handler`): `idParse` is the
outcome of `strconv.ParseInt(idParam, 10, 32)` and `svc` the service
call.  Error bodies are the `fiber.Map` literals of the source. -/
def GetUser (idParse : Option Int) (svc : Int → Except GoError UserResponse) :
    HttpResponse :=
  match idParse with
  | none => ⟨400, .errJson [("error", "Invalid user ID")]⟩
  | some id =>
    match svc id with
    | .ok user => ⟨200, .userJson user⟩
    | .error .userNotFound => ⟨404, .errJson [("error", "User not found")]⟩
    | .error _ => ⟨500, .errJson [("error", "Failed to get user")]⟩

end Handler

/-- C8 (code evaluation): the 404 response the `GetUser` handler builds
for a missing user carries only an `"error"` field — no `"request_id"` —
while the fiber `ErrorHandler` envelope does carry `"request_id"`; the
handler's non-2xx bodies never route through that envelope. -/
theorem handler_error_body_lacks_request_id :
    (Handler.GetUser (some 7) (fun _ => .error .userNotFound)).status = 404 ∧
    (Handler.GetUser (some 7) (fun _ => .error .userNotFound)).body =
      .errJson [("error", "User not found")] ∧
    "request_id" ∉
      (Handler.GetUser (some 7) (fun _ => .error .userNotFound)).body.errKeys ∧
    "request_id" ∈
      (Middleware.ErrorHandlerBody "Internal Server Error" "rid").map Prod.fst :=
  ⟨rfl, rfl, by decide, by decide⟩
